import Mathlib

/-!
Shallow embedding of the Video-to-Text transcription server
(`server.js`, helped by `src/lib/local-whisper.js`).

The pipeline code is asynchronous JavaScript performing file-system and
network effects.  We embed it as pure Lean functions over an explicit
effect oracle (`Env`): every external operation (ffmpeg extraction,
ffprobe, fs.stat, the remote Whisper call, the local Python process,
fs.unlink) is a field of `Env` giving that operation's outcome, and each
embedded function additionally returns the ordered list of effect
`Event`s it performed.  JavaScript strings are modelled by `String`,
with the JS string methods used by the code (`trim`, `includes`,
`toLowerCase`, `Array.join`) defined below on `String`/`List Char`.
Durations (seconds, JS numbers from ffprobe) are modelled by `ℚ`.
File sizes (bytes) are `Nat`.
-/

/-- Constant from server.js line 24: the Whisper API per-request limit. -/
def WHISPER_MAX_SIZE : Nat := 25 * 1024 * 1024

/-- Constant from server.js line 25: fixed segment length in seconds. -/
def SEGMENT_DURATION_SEC : ℚ := 600

/-- Sentinel transcript used whenever no speech was produced. -/
def noSpeech : String := "(No speech detected)"

/-- Model of the temp directory path (server.js line 27). -/
def TEMP_DIR : String := "uploads/temp"

/-- Characters dropped by the JS `String.prototype.trim` model. -/
def trimLeftChars (l : List Char) : List Char :=
  l.dropWhile fun c => c.isWhitespace

/-- List-level model of JS `trim`: drop leading and trailing whitespace. -/
def trimChars (l : List Char) : List Char :=
  ((trimLeftChars l).reverse.dropWhile fun c => c.isWhitespace).reverse

/-- Model of JS `String.prototype.trim`. -/
def jsTrim (s : String) : String := String.mk (trimChars s.data)

/-- Whether `pat` is a prefix of `l`, by character comparison. -/
def prefixBool : List Char → List Char → Bool
  | [], _ => true
  | _ :: _, [] => false
  | a :: xs, b :: ys => a == b && prefixBool xs ys

/-- Whether `pat` occurs contiguously inside `l`. -/
def infixBool (pat : List Char) : List Char → Bool
  | [] => prefixBool pat []
  | c :: rest => prefixBool pat (c :: rest) || infixBool pat rest

/-- Model of JS `String.prototype.includes` (substring test). -/
def jsIncludes (s pat : String) : Bool := infixBool pat.data s.data

/-- Model of JS `String.prototype.toLowerCase`. -/
def jsLower (s : String) : String := String.mk (s.data.map Char.toLower)

/-- Model of JS `Array.prototype.join` with a separator. -/
def jsJoin (sep : String) : List String → String
  | [] => ""
  | [t] => t
  | t :: u :: ts => t ++ sep ++ jsJoin sep (u :: ts)

/-- Model of the JS idiom `t || d` on an optional string value:
the default is taken when the value is absent (`undefined`) or empty. -/
def jsOr (t? : Option String) (d : String) : String :=
  match t? with
  | some t => if t = "" then d else t
  | none => d

/-- Model of the JS idiom `s || d` on a string: default on empty. -/
def jsOrS (s d : String) : String := if s = "" then d else s

/-- Model of `Math.round(size / 1024 / 1024)` on a byte count
(`Math.round x = ⌊x + 1/2⌋` for the nonnegative values used here). -/
def jsRoundMB (size : Nat) : Nat := (2 * size + 1048576) / 2097152

/-- Model of a thrown JS `Error` value, keeping exactly the fields the
route handler's catch block inspects (server.js lines 237-268):
`message`, `status`, `name`, `cause.code` and `code`. -/
structure JsError where
  message : String
  status : Option Nat
  name : String
  causeCode : Option String
  code : Option String
deriving DecidableEq, Repr

/-- Construction `new Error(msg)`: only the message is set. -/
def mkError (msg : String) : JsError :=
  ⟨msg, none, "Error", none, none⟩

/-- Result object of a successful remote transcription call
(`openai.audio.transcriptions.create`): the `text` field may be absent. -/
structure RemoteResult where
  text : Option String
deriving DecidableEq, Repr

/-- Outcome of the local Python Whisper process (server.js lines 104-148):
exit 0 with parsed stdout `{ text? }`, exit 0 with unparseable stdout, or a
failure (non-zero exit or spawn error) carrying the diagnostic message
computed from stderr by lines 122-133 or line 145. -/
inductive LocalOutcome where
  | output (text : Option String)
  | badOutput
  | procError (msg : String)
deriving DecidableEq, Repr

/-- Effect events recorded by the embedded pipeline, in order.  Extraction
events carry a Bool recording whether the external tool succeeded (on
failure no output file is produced); unlink events record whether the
deletion succeeded. -/
inductive Event where
  | extractAudio (inp outp : String) (ok : Bool)
  | probe (p : String)
  | extractSegment (inp outp : String) (start dur : ℚ) (ok : Bool)
  | remote (p : String)
  | localRun (p : String)
  | unlink (p : String) (ok : Bool)
deriving DecidableEq, Repr

deriving instance DecidableEq for Except

/-- Effect oracle: outcomes of every external operation, keyed by its
arguments.  `none` means success for the extraction operations (their
JS promises resolve with no useful value). -/
structure Env where
  extractAudio : String → String → Option JsError
  probe : String → Except JsError ℚ
  extractSegment : String → String → ℚ → ℚ → Option JsError
  fileSize : String → Nat
  remote : String → Except JsError RemoteResult
  localRun : String → LocalOutcome

/-- Model of `path.basename(p)`: the part after the last slash. -/
def baseNameOf (p : String) : String :=
  String.mk ((p.data.reverse.takeWhile fun c => c ≠ '/').reverse)

/-- Drops the part from the last dot on, modelling
`path.basename(p, path.extname(p))` applied to a basename (for names
with a dot somewhere after the first character, the only shape multer
produces for stored uploads). -/
def dropLastExt (b : String) : String :=
  let rev := b.data.reverse
  let fromDot := rev.dropWhile fun c => c ≠ '.'
  match fromDot with
  | [] => b
  | _ :: beforeDot => String.mk beforeDot.reverse

/-- The per-job identifier (server.js line 151). -/
def jobIdOf (filePath : String) : String :=
  dropLastExt (baseNameOf filePath)

/-- The whole-audio render path (server.js line 152). -/
def audioPathOf (jobId : String) : String :=
  TEMP_DIR ++ "/" ++ jobId ++ "-audio.mp3"

/-- The i-th segment render path (server.js line 162). -/
def segPathOf (jobId : String) (i : Nat) : String :=
  TEMP_DIR ++ "/" ++ jobId ++ "-seg-" ++ toString i ++ ".mp3"

/-- Segment planner, generalised from the loop of server.js lines
158-166: from cursor `start`, emit `(start, min L (T - start))` ranges
until the cursor reaches the total duration `T`.  The source fixes
`L = SEGMENT_DURATION_SEC = 600 > 0`; the outer positivity test only
makes the recursion total for arbitrary `L`. -/
def planFrom (L T start : ℚ) : List (ℚ × ℚ) :=
  if hL : 0 < L then
    if h : start < T then
      planFrom L T (start + min L (T - start))
        |>.cons (start, min L (T - start))
    else []
  else []
termination_by Nat.ceil ((T - start) / L)
decreasing_by
  rcases le_total L (T - start) with hle | hle
  · rw [min_eq_left hle]
    have hx1 : (1 : ℚ) ≤ (T - start) / L := (one_le_div hL).mpr hle
    have heq : (T - (start + L)) / L = (T - start) / L - 1 := by
      field_simp
      ring
    rw [heq]
    have h0 : (0 : ℚ) ≤ (T - start) / L - 1 := by linarith
    have hlt : ((Nat.ceil ((T - start) / L - 1) : ℚ)) < (T - start) / L := by
      have := Nat.ceil_lt_add_one h0
      linarith
    exact Nat.lt_ceil.mpr hlt
  · rw [min_eq_right hle]
    have heq : T - (start + (T - start)) = 0 := by ring
    rw [heq]
    simp only [zero_div, Nat.ceil_zero]
    exact Nat.ceil_pos.mpr (div_pos (by linarith) hL)

/-- The plan for a whole job: the loop starts its cursor at 0. -/
def plan (T L : ℚ) : List (ℚ × ℚ) := planFrom L T 0

/-- The extraction events produced by the segmentation loop for the given
ranges, with segment files numbered from `k`. -/
def loopEvents (audioPath jobId : String) : Nat → List (ℚ × ℚ) → List Event
  | _, [] => []
  | k, (s, d) :: rest =>
    Event.extractSegment audioPath (segPathOf jobId k) s d true
      :: loopEvents audioPath jobId (k + 1) rest

/-- The segment files produced by the segmentation loop for the given
ranges, numbered from `k`. -/
def loopPaths (jobId : String) : Nat → List (ℚ × ℚ) → List String
  | _, [] => []
  | k, _ :: rest => segPathOf jobId k :: loopPaths jobId (k + 1) rest

/-- Embedding of the segmentation loop (server.js lines 158-166): extract
one segment per range, accumulating the created files in `segs`; a failed
extraction aborts with the error and the files created so far. -/
def extractLoop (env : Env) (jobId audioPath : String) (duration start : ℚ)
    (segs : List String) : Option JsError × List Event × List String :=
  if h : start < duration then
    let segDuration := min SEGMENT_DURATION_SEC (duration - start)
    let segPath := segPathOf jobId segs.length
    match env.extractSegment audioPath segPath start segDuration with
    | some e =>
      (some e, [Event.extractSegment audioPath segPath start segDuration false],
        segs)
    | none =>
      let r := extractLoop env jobId audioPath duration (start + segDuration)
        (segs ++ [segPath])
      (r.1, Event.extractSegment audioPath segPath start segDuration true
        :: r.2.1, r.2.2)
  else (none, [], segs)
termination_by Nat.ceil ((duration - start) / SEGMENT_DURATION_SEC)
decreasing_by
  have hL : (0 : ℚ) < SEGMENT_DURATION_SEC := by norm_num [SEGMENT_DURATION_SEC]
  rcases le_total SEGMENT_DURATION_SEC (duration - start) with hle | hle
  · rw [min_eq_left hle]
    have hx1 : (1 : ℚ) ≤ (duration - start) / SEGMENT_DURATION_SEC :=
      (one_le_div hL).mpr hle
    have heq : (duration - (start + SEGMENT_DURATION_SEC)) / SEGMENT_DURATION_SEC
        = (duration - start) / SEGMENT_DURATION_SEC - 1 := by
      field_simp
      ring
    rw [heq]
    have h0 : (0 : ℚ) ≤ (duration - start) / SEGMENT_DURATION_SEC - 1 := by
      linarith
    have hlt : ((Nat.ceil ((duration - start) / SEGMENT_DURATION_SEC - 1) : ℚ))
        < (duration - start) / SEGMENT_DURATION_SEC := by
      have := Nat.ceil_lt_add_one h0
      linarith
    exact Nat.lt_ceil.mpr hlt
  · rw [min_eq_right hle]
    have heq : duration - (start + (duration - start)) = 0 := by ring
    rw [heq]
    simp only [zero_div, Nat.ceil_zero]
    exact Nat.ceil_pos.mpr (div_pos (by linarith) hL)

/-- Pushed per-segment text (server.js line 171):
`result.text?.trim() || ''`. -/
def pushText (t? : Option String) : String :=
  match t? with
  | some t => jsTrim t
  | none => ""

/-- Result assembly (server.js line 174):
`texts.filter(Boolean).join('\n\n') || '(No speech detected)'`. -/
def assemble (texts : List String) : String :=
  jsOrS (jsJoin "\n\n" (texts.filter fun t => t ≠ "")) noSpeech

/-- The result-assembly join applied to raw per-segment texts: the code
trims each text when pushing it (line 171) and then assembles (line 174).
This is the `join` of the Result Assembler. -/
def joinTexts (texts : List String) : String :=
  assemble (texts.map jsTrim)

/-- Described from the wording of the spec (Result Assembler, section 4.6):
trim each text, drop the ones empty after trimming, join with a blank-line
separator, trim the final string, and fall back to the sentinel when the
result is empty.  Stated separately so that it can be compared with
`joinTexts`, which is read off the code. -/
def joinSpec (texts : List String) : String :=
  let kept := (texts.map jsTrim).filter fun t => t ≠ ""
  let joined := jsTrim (jsJoin "\n\n" kept)
  if joined = "" then noSpeech else joined

/-- Embedding of `transcribeFile` (server.js lines 93-102): stat the file,
fail locally when it exceeds the service limit, otherwise perform the
remote call (the only network event). -/
def transcribeFileM (env : Env) (p : String) :
    Except JsError RemoteResult × List Event :=
  let size := env.fileSize p
  if size > WHISPER_MAX_SIZE then
    (Except.error (mkError ("Segment too large (" ++ toString (jsRoundMB size)
      ++ " MB). Try shorter segments.")), [])
  else (env.remote p, [Event.remote p])

/-- Embedding of the sequential transcription loop (server.js lines
168-172): transcribe each created segment file in order, aborting on the
first failure. -/
def transcribeSegs (env : Env) : List String → Except JsError (List String) × List Event
  | [] => (Except.ok [], [])
  | p :: rest =>
    match transcribeFileM env p with
    | (Except.error e, evs) => (Except.error e, evs)
    | (Except.ok r, evs) =>
      match transcribeSegs env rest with
      | (Except.error e, evs2) => (Except.error e, evs ++ evs2)
      | (Except.ok texts, evs2) => (Except.ok (pushText r.text :: texts), evs ++ evs2)

/-- The try-block of `transcribeLargeFile` (server.js lines 155-174),
returning the result, the events performed, and the value of the
`segments` array when the block finished or aborted (this is the list the
finally-block will delete together with the audio render). -/
def largeBody (env : Env) (filePath jobId audioPath : String) :
    Except JsError String × List Event × List String :=
  match env.extractAudio filePath audioPath with
  | some e => (Except.error e, [Event.extractAudio filePath audioPath false], [])
  | none =>
    match env.probe audioPath with
    | Except.error e =>
      (Except.error e,
        [Event.extractAudio filePath audioPath true, Event.probe audioPath], [])
    | Except.ok duration =>
      match extractLoop env jobId audioPath duration 0 [] with
      | (some e, evs, segs) =>
        (Except.error e,
          Event.extractAudio filePath audioPath true :: Event.probe audioPath
            :: evs, segs)
      | (none, evs, segs) =>
        match transcribeSegs env segs with
        | (Except.error e, evs2) =>
          (Except.error e,
            Event.extractAudio filePath audioPath true :: Event.probe audioPath
              :: (evs ++ evs2), segs)
        | (Except.ok texts, evs2) =>
          (Except.ok (assemble texts),
            Event.extractAudio filePath audioPath true :: Event.probe audioPath
              :: (evs ++ evs2), segs)

/-- The finally-block of `transcribeLargeFile` (server.js lines 175-182):
attempt to unlink each path; the deletion oracle `u` tells whether each
unlink succeeds, and a failed unlink is swallowed. -/
def cleanupEvents (u : String → Bool) (paths : List String) : List Event :=
  paths.map fun p => Event.unlink p (u p)

/-- Embedding of `transcribeLargeFile` (server.js lines 150-183): run the
try-block, then always delete the audio render and every created segment
file, best effort. -/
def transcribeLargeFile (env : Env) (u : String → Bool) (filePath : String) :
    Except JsError String × List Event :=
  let jobId := jobIdOf filePath
  let audioPath := audioPathOf jobId
  let r := largeBody env filePath jobId audioPath
  (r.1, r.2.1 ++ cleanupEvents u (audioPath :: r.2.2))

/-- Embedding of `runLocalWhisper` (server.js lines 104-148): spawn the
Python process once; on exit 0 with parsed output resolve with
`out.text || '(No speech detected)'`; unparseable stdout and process
failures reject. -/
def runLocalWhisper (env : Env) (p : String) :
    Except JsError String × List Event :=
  (match env.localRun p with
    | LocalOutcome.output t? => Except.ok (jsOr t? noSpeech)
    | LocalOutcome.badOutput =>
      Except.error (mkError "Invalid output from Python script")
    | LocalOutcome.procError m => Except.error (mkError m),
  [Event.localRun p])

/-- Response body of the transcription route: `{ text }` or `{ error }`. -/
inductive Body where
  | text (t : String)
  | error (e : String)
deriving DecidableEq, Repr

/-- An HTTP response of the transcription route. -/
structure Response where
  status : Nat
  body : Body
deriving DecidableEq, Repr

/-- Condition of server.js line 237: the error message mentions the
media tool. -/
def mentionsTool (e : JsError) : Bool :=
  jsIncludes (jsLower e.message) ("ffmpeg") || jsIncludes (jsLower e.message) ("ffprobe")

/-- Condition of server.js lines 250-254: a connectivity failure. -/
def isConnErr (e : JsError) : Bool :=
  decide (e.name = "APIConnectionError") || decide (e.causeCode = some "ECONNRESET")
    || decide (e.causeCode = some "ETIMEDOUT") || decide (e.causeCode = some "ENOTFOUND")

/-- The catch-block of the route handler (server.js lines 234-272),
mapping a thrown error to the response. -/
def errorResponse (e : JsError) : Response :=
  if mentionsTool e = true then
    ⟨500, Body.error ("FFmpeg is required for large videos. Install it from "
      ++ "https://ffmpeg.org and ensure it is in your PATH.")⟩
  else if e.status = some 401 then
    ⟨401, Body.error "Invalid API key. Check your OPENAI_API_KEY."⟩
  else if e.status = some 429 then
    ⟨429, Body.error "Rate limit exceeded. Please wait a moment and try again."⟩
  else if isConnErr e = true then
    ⟨503, Body.error ("Connection to OpenAI failed. Check your internet, "
      ++ "try again, or use a VPN if OpenAI is blocked in your region.")⟩
  else if e.code = some "LIMIT_FILE_SIZE" then
    ⟨400, Body.error "File too large. Maximum size is 200 MB."⟩
  else if jsIncludes e.message ("Invalid file type") = true then
    ⟨400, Body.error e.message⟩
  else
    ⟨500, Body.error (jsOrS e.message "Transcription failed. Please try again.")⟩

/-- Process-wide configuration, read once at startup (server.js lines
30-31 and the OPENAI_API_KEY lookup of line 211). -/
structure Config where
  mode : String
  apiKey : Option String

/-- An accepted upload as multer reports it to the handler: its stored
path and its size in bytes. -/
structure ReqFile where
  path : String
  size : Nat

/-- Embedding of the route handler `app.post('/api/transcribe')`
(server.js lines 195-282).  Returns the response and the ordered events;
the trailing finally-block always unlinks the stored upload when one
exists. -/
def handler (cfg : Config) (env : Env) (u : String → Bool)
    (req : Option ReqFile) : Response × List Event :=
  match req with
  | none => (⟨400, Body.error "No file uploaded"⟩, [])
  | some f =>
    let r : Response × List Event :=
      if cfg.mode = "local" then
        match runLocalWhisper env f.path with
        | (Except.ok t, evs) => (⟨200, Body.text t⟩, evs)
        | (Except.error e, evs) => (errorResponse e, evs)
      else
        match cfg.apiKey with
        | none =>
          (⟨500, Body.error ("OPENAI_API_KEY is not set. Add it to .env for "
            ++ "API mode, or set TRANSCRIPTION_MODE=local for local Whisper.")⟩,
            [])
        | some _ =>
          if f.size ≤ WHISPER_MAX_SIZE then
            match transcribeFileM env f.path with
            | (Except.ok tr, evs) => (⟨200, Body.text (jsOr tr.text noSpeech)⟩, evs)
            | (Except.error e, evs) => (errorResponse e, evs)
          else
            match transcribeLargeFile env u f.path with
            | (Except.ok t, evs) => (⟨200, Body.text t⟩, evs)
            | (Except.error e, evs) => (errorResponse e, evs)
    (r.1, r.2 ++ [Event.unlink f.path (u f.path)])

/-- Text assembly of `transcribeLocal` (src/lib/local-whisper.js lines
57-65): per-chunk texts are trimmed and pushed only when nonempty. -/
def localChunkTexts (results : List (Option String)) : List String :=
  results.foldr
    (fun t? acc =>
      match t? with
      | some t => if jsTrim t = "" then acc else jsTrim t :: acc
      | none => acc) []

/-- Final join of `transcribeLocal` (src/lib/local-whisper.js line 65):
`texts.join(' ').trim() || '(No speech detected)'`. -/
def transcribeLocalJoin (texts : List String) : String :=
  jsOrS (jsTrim (jsJoin " " texts)) noSpeech

/-- The files created by a trace: outputs of successful extractions. -/
def createdFiles (evs : List Event) : List String :=
  evs.filterMap fun e =>
    match e with
    | Event.extractAudio _ outp true => some outp
    | Event.extractSegment _ outp _ _ true => some outp
    | _ => none

/-- Whether a trace contains a successful deletion of `p`. -/
def deletedIn (evs : List Event) (p : String) : Bool :=
  decide (Event.unlink p true ∈ evs)

/-- Created temp files whose successful deletion never happened. -/
def leakedFiles (evs : List Event) : List String :=
  (createdFiles evs).filter fun p => deletedIn evs p = false

/-! ### Concrete fixtures used by witnesses and counterexamples -/

/-- Remote results used by the all-success oracle. -/
def okR : String → RemoteResult := fun p => ⟨some ("t-" ++ p)⟩

/-- Oracle on which every external operation succeeds; the probed
duration is 1500 s and every file weighs 1 MB. -/
def okEnv : Env :=
  ⟨fun _ _ => none, fun _ => Except.ok 1500, fun _ _ _ _ => none,
    fun _ => 1000000, fun p => Except.ok (okR p),
    fun _ => LocalOutcome.output (some "local text")⟩

/-- A remote-network error fixture. -/
def netErr : JsError := mkError "socket hang up"

/-- Oracle on which the remote call for segment 1 of job `video` fails
and everything else succeeds. -/
def failEnv : Env :=
  ⟨fun _ _ => none, fun _ => Except.ok 1500, fun _ _ _ _ => none,
    fun _ => 1000000,
    fun p => if p = segPathOf "video" 1 then Except.error netErr
      else Except.ok (okR p),
    fun _ => LocalOutcome.output (some "local text")⟩

/-- Oracle on which extraction succeeds, the duration is 600 s, and every
file on disk weighs 26 MB — so the single planned segment render exceeds
the 25 MB service limit. -/
def bigEnv : Env :=
  ⟨fun _ _ => none, fun _ => Except.ok 600, fun _ _ _ _ => none,
    fun _ => 27262976, fun p => Except.ok (okR p),
    fun _ => LocalOutcome.output (some "local text")⟩

/-- Deletion oracle on which every unlink succeeds. -/
def allDel : String → Bool := fun _ => true

/-- Deletion oracle on which every unlink fails. -/
def noDel : String → Bool := fun _ => false

/-- Remote-mode configuration with a credential. -/
def apiCfg : Config := ⟨"api", some "sk-test"⟩

/-- Local-mode configuration. -/
def localCfg : Config := ⟨"local", none⟩

/-- A stored upload over the 25 MB service limit. -/
def vidFile : ReqFile := ⟨"video.mp4", 30000000⟩

/-- A stored upload under the 25 MB service limit, matching the 1 MB
probe oracle. -/
def smallFile : ReqFile := ⟨"clip.mp3", 1000000⟩

/-! ### Statement forms of the claims -/

/-- Claim C4 at a given duration and segment length: the plan is the
arithmetic sequence of clamped ranges, its count is the ceiling of
`T / L`, its lengths sum to `T`, it is empty at `T = 0`, no range extends
past `T`, and consecutive ranges do not overlap. -/
def plannerCorrect (T L : ℚ) : Prop :=
  plan T L = (List.range (Nat.ceil (T / L))).map
      (fun i : ℕ => ((i : ℚ) * L, min L (T - (i : ℚ) * L)))
  ∧ (plan T L).length = Nat.ceil (T / L)
  ∧ (((plan T L).map fun r => r.2).sum) = T
  ∧ (T = 0 → plan T L = [])
  ∧ (∀ i, ∀ h : i < (plan T L).length,
      ((plan T L).get ⟨i, h⟩).1 = (i : ℚ) * L
      ∧ ((plan T L).get ⟨i, h⟩).2 = min L (T - (i : ℚ) * L)
      ∧ 0 < ((plan T L).get ⟨i, h⟩).2
      ∧ ((plan T L).get ⟨i, h⟩).1 + ((plan T L).get ⟨i, h⟩).2 ≤ T)
  ∧ (∀ i, ∀ h : i + 1 < (plan T L).length,
      ((plan T L).get ⟨i, Nat.lt_of_succ_lt h⟩).1
        + ((plan T L).get ⟨i, Nat.lt_of_succ_lt h⟩).2
        ≤ ((plan T L).get ⟨i + 1, h⟩).1)

/-- The full event trace of a successful segmented job: one audio
extraction, one probe, one segment extraction per planned range in
order, one remote dispatch per segment in the same order, then deletion
of the audio render and every segment, then deletion of the upload. -/
def segmentedTrace (u : String → Bool) (f : ReqFile) (T : ℚ) : List Event :=
  (Event.extractAudio f.path (audioPathOf (jobIdOf f.path)) true
      :: Event.probe (audioPathOf (jobIdOf f.path))
      :: (loopEvents (audioPathOf (jobIdOf f.path)) (jobIdOf f.path) 0
          (plan T SEGMENT_DURATION_SEC)
        ++ (loopPaths (jobIdOf f.path) 0 (plan T SEGMENT_DURATION_SEC)).map
          Event.remote))
    ++ cleanupEvents u (audioPathOf (jobIdOf f.path)
      :: loopPaths (jobIdOf f.path) 0 (plan T SEGMENT_DURATION_SEC))
    ++ [Event.unlink f.path (u f.path)]

/-- Claim C1 at a given job: the segmented run succeeds with the ordered
join of the per-segment texts and performs exactly `segmentedTrace`. -/
def segmentedRun (cfg : Config) (env : Env) (u : String → Bool)
    (f : ReqFile) (T : ℚ) (R : String → RemoteResult) : Prop :=
  handler cfg env u (some f) =
    (⟨200, Body.text (assemble
        ((loopPaths (jobIdOf f.path) 0 (plan T SEGMENT_DURATION_SEC)).map
          fun p => pushText (R p).text))⟩,
      segmentedTrace u f T)

/-- The event trace of a segmented job whose remote call for segment `k`
fails: all planned segments were extracted, only segments `0..k` were
dispatched, and every temporary file is still deleted. -/
def failTrace (u : String → Bool) (f : ReqFile) (T : ℚ) (k : ℕ) : List Event :=
  (Event.extractAudio f.path (audioPathOf (jobIdOf f.path)) true
      :: Event.probe (audioPathOf (jobIdOf f.path))
      :: (loopEvents (audioPathOf (jobIdOf f.path)) (jobIdOf f.path) 0
          (plan T SEGMENT_DURATION_SEC)
        ++ (List.range (k + 1)).map
          fun i => Event.remote (segPathOf (jobIdOf f.path) i)))
    ++ cleanupEvents u (audioPathOf (jobIdOf f.path)
      :: loopPaths (jobIdOf f.path) 0 (plan T SEGMENT_DURATION_SEC))
    ++ [Event.unlink f.path (u f.path)]

/-- Claim C3 at a given job: the run surfaces the remote error of segment
`k` and performs exactly `failTrace`. -/
def failAtRun (cfg : Config) (env : Env) (u : String → Bool) (f : ReqFile)
    (T : ℚ) (e : JsError) (k : ℕ) : Prop :=
  handler cfg env u (some f) = (errorResponse e, failTrace u f T k)

/-- Claim C2 at a given job: the result ignores the deletion oracle, the
deletion of every created temp file is attempted, and when every unlink
succeeds no created temp file survives the call. -/
def cleanupSpec (env : Env) (u u' : String → Bool) (filePath : String) : Prop :=
  (transcribeLargeFile env u filePath).1 = (transcribeLargeFile env u' filePath).1
  ∧ (∀ q ∈ createdFiles (transcribeLargeFile env u filePath).2,
      Event.unlink q (u q) ∈ (transcribeLargeFile env u filePath).2)
  ∧ ((∀ q, u q = true) →
      leakedFiles (transcribeLargeFile env u filePath).2 = [])

/-- Claim C10 at a given request: the trace ends by attempting to unlink
the stored upload, and the response ignores the deletion oracle. -/
def uploadCleanup (cfg : Config) (env : Env) (u u' : String → Bool)
    (f : ReqFile) : Prop :=
  (∃ evs0, (handler cfg env u (some f)).2
      = evs0 ++ [Event.unlink f.path (u f.path)])
  ∧ (handler cfg env u (some f)).1 = (handler cfg env u' (some f)).1

/-- Claim C7, local part: the whole job is one local-backend call plus
the upload unlink — no probe, no extraction, no planner, no remote call. -/
def localDispatch (cfg : Config) (env : Env) (u : String → Bool)
    (f : ReqFile) : Prop :=
  (handler cfg env u (some f)).2
    = [Event.localRun f.path, Event.unlink f.path (u f.path)]

/-- Claim C7, remote single-shot part: the whole job is one remote call
plus the upload unlink — no probe, no extraction, no planner. -/
def singleShotDispatch (cfg : Config) (env : Env) (u : String → Bool)
    (f : ReqFile) : Prop :=
  (handler cfg env u (some f)).2
    = [Event.remote f.path, Event.unlink f.path (u f.path)]

/-- Claim C6 at a given file: the adapter fails locally, with the
segment-too-large error and no network event, exactly when the file
exceeds the service limit; otherwise it performs the one remote call and
surfaces its outcome unchanged. -/
def oversizeGuard (env : Env) (p : String) : Prop :=
  (env.fileSize p > WHISPER_MAX_SIZE →
    transcribeFileM env p = (Except.error (mkError ("Segment too large ("
      ++ toString (jsRoundMB (env.fileSize p))
      ++ " MB). Try shorter segments.")), []))
  ∧ (env.fileSize p ≤ WHISPER_MAX_SIZE →
    transcribeFileM env p = (env.remote p, [Event.remote p]))
  ∧ (((∃ e, (transcribeFileM env p).1 = Except.error e)
      ∧ (transcribeFileM env p).2 = [])
    ↔ env.fileSize p > WHISPER_MAX_SIZE)

/-! ### Planner lemmas -/

theorem ceil_step (L T start : ℚ) (hL : 0 < L) (h : start < T) :
    Nat.ceil ((T - (start + min L (T - start))) / L) + 1
      = Nat.ceil ((T - start) / L) := by
  rcases le_total L (T - start) with hle | hle
  · rw [min_eq_left hle]
    have heq : (T - (start + L)) / L = (T - start) / L - 1 := by
      field_simp
      ring
    rw [heq]
    have h0 : (0 : ℚ) ≤ (T - start) / L - 1 := by
      have h1 : (1 : ℚ) ≤ (T - start) / L := (one_le_div hL).mpr hle
      linarith
    have h2 := Nat.ceil_add_one h0
    rw [sub_add_cancel] at h2
    omega
  · rw [min_eq_right hle]
    have heq : T - (start + (T - start)) = 0 := by ring
    rw [heq, zero_div, Nat.ceil_zero]
    have hpos : 0 < Nat.ceil ((T - start) / L) :=
      Nat.ceil_pos.mpr (div_pos (by linarith) hL)
    have hle1 : Nat.ceil ((T - start) / L) ≤ 1 := by
      have h1 : (T - start) / L ≤ 1 := (div_le_one hL).mpr hle
      exact Nat.ceil_le.mpr (by simpa using h1)
    omega

theorem ceil_nonpos_of_le (L T start : ℚ) (hL : 0 < L) (hTs : ¬ start < T) :
    Nat.ceil ((T - start) / L) = 0 := by
  apply Nat.ceil_eq_zero.mpr
  apply div_nonpos_of_nonpos_of_nonneg
  · linarith [not_lt.mp hTs]
  · linarith


/-- Closed form of the planner loop from an arbitrary cursor. -/
theorem planFrom_closed (L T : ℚ) (hL : 0 < L) :
    ∀ n start, Nat.ceil ((T - start) / L) ≤ n →
      planFrom L T start = (List.range (Nat.ceil ((T - start) / L))).map
        fun i : ℕ => (start + (i : ℚ) * L, min L (T - start - (i : ℚ) * L)) := by
  intro n
  induction n with
  | zero =>
    intro start hn
    have h0 : Nat.ceil ((T - start) / L) = 0 := Nat.le_zero.mp hn
    have hTs : ¬ start < T := by
      intro hlt
      have hp : (0 : ℚ) < (T - start) / L := div_pos (by linarith) hL
      have := Nat.ceil_pos.mpr hp
      omega
    rw [h0, planFrom, dif_pos hL, dif_neg hTs]
    simp
  | succ n ih =>
    intro start hn
    by_cases h : start < T
    · have hstep := ceil_step L T start hL h
      have hm : Nat.ceil ((T - (start + min L (T - start))) / L) ≤ n := by omega
      have ihs := ih (start + min L (T - start)) hm
      rw [planFrom, dif_pos hL, dif_pos h, ihs, ← hstep, List.range_succ_eq_map]
      rw [List.map_cons, List.map_map]
      refine congrArg₂ List.cons ?_ ?_
      · simp only [Nat.cast_zero, zero_mul, add_zero, sub_zero]
      · apply List.map_congr_left
        intro i _
        rcases le_total L (T - start) with hle | hle
        · rw [min_eq_left hle]
          have c1 : start + L + (i : ℚ) * L = start + ((Nat.succ i : ℕ) : ℚ) * L := by
            push_cast
            ring
          have c2 : T - (start + L) - (i : ℚ) * L
              = T - start - ((Nat.succ i : ℕ) : ℚ) * L := by
            push_cast
            ring
          rw [Function.comp_apply]
          exact congrArg₂ Prod.mk c1 (congrArg (min L) c2)
        · exfalso
          rw [min_eq_right hle] at hm ihs hstep
          have hz : T - (start + (T - start)) = 0 := by ring
          rw [hz, zero_div, Nat.ceil_zero] at hstep
          have hi : i < Nat.ceil ((T - (start + min L (T - start))) / L) := by
            have := List.mem_range.mp (by assumption)
            exact this
          rw [min_eq_right hle, hz, zero_div, Nat.ceil_zero] at hi
          omega
    · rw [planFrom, dif_pos hL, dif_neg h, ceil_nonpos_of_le L T start hL h]
      simp

theorem planFrom_eq (L T start : ℚ) (hL : 0 < L) :
    planFrom L T start = (List.range (Nat.ceil ((T - start) / L))).map
      fun i : ℕ => (start + (i : ℚ) * L, min L (T - start - (i : ℚ) * L)) :=
  planFrom_closed L T hL _ start le_rfl

theorem plan_closed (T L : ℚ) (hL : 0 < L) :
    plan T L = (List.range (Nat.ceil (T / L))).map
      fun i : ℕ => ((i : ℚ) * L, min L (T - (i : ℚ) * L)) := by
  rw [plan, planFrom_eq L T 0 hL]
  simp

theorem plan_length (T L : ℚ) (hL : 0 < L) :
    (plan T L).length = Nat.ceil (T / L) := by
  rw [plan_closed T L hL, List.length_map, List.length_range]

theorem planFrom_sum (L T : ℚ) (hL : 0 < L) :
    ∀ n start, Nat.ceil ((T - start) / L) ≤ n → start ≤ T →
      (((planFrom L T start).map fun r => r.2).sum) = T - start := by
  intro n
  induction n with
  | zero =>
    intro start hn hsT
    have h0 : Nat.ceil ((T - start) / L) = 0 := Nat.le_zero.mp hn
    have hTs : ¬ start < T := by
      intro hlt
      have hp : (0 : ℚ) < (T - start) / L := div_pos (by linarith) hL
      have := Nat.ceil_pos.mpr hp
      omega
    rw [planFrom, dif_pos hL, dif_neg hTs]
    have hEq : start = T := le_antisymm hsT (not_lt.mp hTs)
    simp [hEq]
  | succ n ih =>
    intro start hn hsT
    by_cases h : start < T
    · have hstep := ceil_step L T start hL h
      have hm : Nat.ceil ((T - (start + min L (T - start))) / L) ≤ n := by omega
      have hsT' : start + min L (T - start) ≤ T := by
        have := min_le_right L (T - start)
        linarith
      have ihs := ih (start + min L (T - start)) hm hsT'
      rw [planFrom, dif_pos hL, dif_pos h]
      simp only [List.map_cons, List.sum_cons]
      rw [ihs]
      ring
    · rw [planFrom, dif_pos hL, dif_neg h]
      have hEq : start = T := le_antisymm hsT (not_lt.mp h)
      simp [hEq]

theorem plan_sum (T L : ℚ) (hT : 0 ≤ T) (hL : 0 < L) :
    (((plan T L).map fun r => r.2).sum) = T := by
  have hs := planFrom_sum L T hL (Nat.ceil ((T - 0) / L)) 0 le_rfl (by linarith)
  rw [plan, hs]
  ring

theorem not_lt_of_ceil_zero (L T start : ℚ) (hL : 0 < L)
    (h0 : Nat.ceil ((T - start) / L) = 0) : ¬ start < T := by
  intro hlt
  have hp : (0 : ℚ) < (T - start) / L := div_pos (by linarith) hL
  have := Nat.ceil_pos.mpr hp
  omega

theorem segDurPos : (0 : ℚ) < SEGMENT_DURATION_SEC := by
  norm_num [SEGMENT_DURATION_SEC]

/-! ### Extraction-loop lemmas -/

theorem loopPaths_eq (jobId : String) : ∀ (rs : List (ℚ × ℚ)) (k : ℕ),
    loopPaths jobId k rs
      = (List.range rs.length).map fun i => segPathOf jobId (k + i) := by
  intro rs
  induction rs with
  | nil => intro k; simp [loopPaths]
  | cons r rest ih =>
    intro k
    rw [loopPaths, ih (k + 1), List.length_cons, List.range_succ_eq_map,
      List.map_cons, List.map_map]
    refine congrArg₂ List.cons (by simp) ?_
    apply List.map_congr_left
    intro i _
    simp only [Function.comp_apply]
    have : k + 1 + i = k + Nat.succ i := by omega
    rw [this]

theorem extractLoop_ok (env : Env) (jobId audioPath : String) (T : ℚ)
    (hseg : ∀ a b s d, env.extractSegment a b s d = none) :
    ∀ n start segs, Nat.ceil ((T - start) / SEGMENT_DURATION_SEC) ≤ n →
      extractLoop env jobId audioPath T start segs =
        (none,
          loopEvents audioPath jobId segs.length
            (planFrom SEGMENT_DURATION_SEC T start),
          segs ++ loopPaths jobId segs.length
            (planFrom SEGMENT_DURATION_SEC T start)) := by
  intro n
  induction n with
  | zero =>
    intro start segs hn
    have h0 := Nat.le_zero.mp hn
    have hTs := not_lt_of_ceil_zero SEGMENT_DURATION_SEC T start segDurPos h0
    rw [extractLoop, dif_neg hTs, planFrom, dif_pos segDurPos, dif_neg hTs]
    simp [loopEvents, loopPaths]
  | succ n ih =>
    intro start segs hn
    by_cases h : start < T
    · have hstep := ceil_step SEGMENT_DURATION_SEC T start segDurPos h
      have hm : Nat.ceil ((T - (start + min SEGMENT_DURATION_SEC (T - start)))
          / SEGMENT_DURATION_SEC) ≤ n := by omega
      have ihs := ih (start + min SEGMENT_DURATION_SEC (T - start))
        (segs ++ [segPathOf jobId segs.length]) hm
      rw [extractLoop, dif_pos h, planFrom, dif_pos segDurPos, dif_pos h]
      simp only [hseg, ihs, loopEvents, loopPaths, List.length_append,
        List.length_cons, List.length_nil, Nat.zero_add]
      simp [List.append_assoc]
    · rw [extractLoop, dif_neg h, planFrom, dif_pos segDurPos, dif_neg h]
      simp [loopEvents, loopPaths]

theorem createdFiles_append (a b : List Event) :
    createdFiles (a ++ b) = createdFiles a ++ createdFiles b :=
  List.filterMap_append a b _

/-- In the loop, the accumulated segment list is exactly the incoming one
extended by the outputs of the successful extraction events — for any
oracle, including failing ones. -/
theorem extractLoop_segs (env : Env) (jobId audioPath : String) (T : ℚ) :
    ∀ n start segs, Nat.ceil ((T - start) / SEGMENT_DURATION_SEC) ≤ n →
      (extractLoop env jobId audioPath T start segs).2.2
        = segs ++ createdFiles (extractLoop env jobId audioPath T start segs).2.1 := by
  intro n
  induction n with
  | zero =>
    intro start segs hn
    have h0 := Nat.le_zero.mp hn
    have hTs := not_lt_of_ceil_zero SEGMENT_DURATION_SEC T start segDurPos h0
    rw [extractLoop, dif_neg hTs]
    simp [createdFiles]
  | succ n ih =>
    intro start segs hn
    by_cases h : start < T
    · have hstep := ceil_step SEGMENT_DURATION_SEC T start segDurPos h
      have hm : Nat.ceil ((T - (start + min SEGMENT_DURATION_SEC (T - start)))
          / SEGMENT_DURATION_SEC) ≤ n := by omega
      rw [extractLoop, dif_pos h]
      rcases hmatch : env.extractSegment audioPath
          (segPathOf jobId segs.length) start
          (min SEGMENT_DURATION_SEC (T - start)) with _ | e
      · have ihs := ih (start + min SEGMENT_DURATION_SEC (T - start))
          (segs ++ [segPathOf jobId segs.length]) hm
        simp only [hmatch]
        rw [ihs]
        simp [createdFiles, List.append_assoc]
      · simp only [hmatch]
        simp [createdFiles]
    · rw [extractLoop, dif_neg h]
      simp [createdFiles]

/-! ### Transcription-loop lemmas -/

theorem transcribeSegs_ok (env : Env) (R : String → RemoteResult) :
    ∀ paths,
      (∀ p ∈ paths, env.fileSize p ≤ WHISPER_MAX_SIZE
        ∧ env.remote p = Except.ok (R p)) →
      transcribeSegs env paths =
        (Except.ok (paths.map fun p => pushText (R p).text),
          paths.map Event.remote) := by
  intro paths
  induction paths with
  | nil => intro _; rfl
  | cons p rest ih =>
    intro hall
    obtain ⟨hsize, hrem⟩ := hall p (List.mem_cons_self p rest)
    have ihr := ih fun q hq => hall q (List.mem_cons_of_mem p hq)
    rw [transcribeSegs]
    unfold transcribeFileM
    rw [if_neg (by omega), hrem, ihr]
    simp

theorem transcribeSegs_fail (env : Env) (R : String → RemoteResult)
    (e : JsError) :
    ∀ pre pk post,
      (∀ p ∈ pre, env.fileSize p ≤ WHISPER_MAX_SIZE
        ∧ env.remote p = Except.ok (R p)) →
      env.fileSize pk ≤ WHISPER_MAX_SIZE →
      env.remote pk = Except.error e →
      transcribeSegs env (pre ++ pk :: post) =
        (Except.error e, pre.map Event.remote ++ [Event.remote pk]) := by
  intro pre
  induction pre with
  | nil =>
    intro pk post _ hsize hrem
    rw [List.nil_append, transcribeSegs]
    unfold transcribeFileM
    rw [if_neg (by omega), hrem]
    simp
  | cons q rest ih =>
    intro pk post hall hsize hrem
    obtain ⟨hq1, hq2⟩ := hall q (List.mem_cons_self q rest)
    have ihr := ih pk post (fun r hr => hall r (List.mem_cons_of_mem q hr))
      hsize hrem
    rw [List.cons_append, transcribeSegs]
    unfold transcribeFileM
    rw [if_neg (by omega), hq2, ihr]
    simp

/-- The transcription loop only performs remote-call events, so it never
creates files — for any oracle. -/
theorem createdFiles_transcribeSegs (env : Env) :
    ∀ paths, createdFiles (transcribeSegs env paths).2 = [] := by
  intro paths
  induction paths with
  | nil => rfl
  | cons p rest ih =>
    rw [transcribeSegs]
    rcases htf : transcribeFileM env p with ⟨res, evs⟩
    have hevs : createdFiles evs = [] := by
      unfold transcribeFileM at htf
      by_cases h : env.fileSize p > WHISPER_MAX_SIZE
      · rw [if_pos h] at htf
        cases htf
        rfl
      · rw [if_neg h] at htf
        cases htf
        rfl
    rcases res with e | r
    · simpa using hevs
    · rcases hrest : transcribeSegs env rest with ⟨res2, evs2⟩
      have hevs2 : createdFiles evs2 = [] := by
        have h2 := ih
        rw [hrest] at h2
        exact h2
      rcases res2 with e2 | texts
      · simpa [createdFiles_append, hevs2] using hevs
      · simpa [createdFiles_append, hevs2] using hevs

theorem createdFiles_cleanup (u : String → Bool) :
    ∀ paths, createdFiles (cleanupEvents u paths) = [] := by
  intro paths
  induction paths with
  | nil => rfl
  | cons p rest ih => simpa [cleanupEvents, createdFiles] using ih

/-! ### Large-file pipeline lemmas -/

theorem largeBody_ok (env : Env) (filePath jobId audioPath : String) (T : ℚ)
    (R : String → RemoteResult)
    (hea : env.extractAudio filePath audioPath = none)
    (hp : env.probe audioPath = Except.ok T)
    (hseg : ∀ a b s d, env.extractSegment a b s d = none)
    (hsize : ∀ i, env.fileSize (segPathOf jobId i) ≤ WHISPER_MAX_SIZE)
    (hrem : ∀ p, env.remote p = Except.ok (R p)) :
    largeBody env filePath jobId audioPath =
      (Except.ok (assemble
          ((loopPaths jobId 0 (plan T SEGMENT_DURATION_SEC)).map
            fun p => pushText (R p).text)),
        Event.extractAudio filePath audioPath true :: Event.probe audioPath
          :: (loopEvents audioPath jobId 0 (plan T SEGMENT_DURATION_SEC)
            ++ (loopPaths jobId 0 (plan T SEGMENT_DURATION_SEC)).map
              Event.remote),
        loopPaths jobId 0 (plan T SEGMENT_DURATION_SEC)) := by
  have hloop := extractLoop_ok env jobId audioPath T hseg
    (Nat.ceil ((T - 0) / SEGMENT_DURATION_SEC)) 0 [] le_rfl
  have hplan : planFrom SEGMENT_DURATION_SEC T 0 = plan T SEGMENT_DURATION_SEC :=
    rfl
  rw [hplan] at hloop
  simp only [List.length_nil, List.nil_append] at hloop
  have hmem : ∀ p ∈ loopPaths jobId 0 (plan T SEGMENT_DURATION_SEC),
      env.fileSize p ≤ WHISPER_MAX_SIZE ∧ env.remote p = Except.ok (R p) := by
    intro p hp'
    rw [loopPaths_eq] at hp'
    obtain ⟨i, _, rfl⟩ := List.mem_map.mp hp'
    exact ⟨hsize _, hrem _⟩
  unfold largeBody
  simp only [hea, hp, hloop, transcribeSegs_ok env R _ hmem]

theorem largeBody_failAt (env : Env) (filePath jobId audioPath : String)
    (T : ℚ) (R : String → RemoteResult) (e : JsError) (k : ℕ)
    (hea : env.extractAudio filePath audioPath = none)
    (hp : env.probe audioPath = Except.ok T)
    (hseg : ∀ a b s d, env.extractSegment a b s d = none)
    (hk : k < (plan T SEGMENT_DURATION_SEC).length)
    (hsize : ∀ i, env.fileSize (segPathOf jobId i) ≤ WHISPER_MAX_SIZE)
    (hremOk : ∀ i < k,
      env.remote (segPathOf jobId i) = Except.ok (R (segPathOf jobId i)))
    (hremE : env.remote (segPathOf jobId k) = Except.error e) :
    largeBody env filePath jobId audioPath =
      (Except.error e,
        Event.extractAudio filePath audioPath true :: Event.probe audioPath
          :: (loopEvents audioPath jobId 0 (plan T SEGMENT_DURATION_SEC)
            ++ (List.range (k + 1)).map fun i => Event.remote (segPathOf jobId i)),
        loopPaths jobId 0 (plan T SEGMENT_DURATION_SEC)) := by
  have hloop := extractLoop_ok env jobId audioPath T hseg
    (Nat.ceil ((T - 0) / SEGMENT_DURATION_SEC)) 0 [] le_rfl
  have hplan : planFrom SEGMENT_DURATION_SEC T 0 = plan T SEGMENT_DURATION_SEC :=
    rfl
  rw [hplan] at hloop
  simp only [List.length_nil, List.nil_append] at hloop
  obtain ⟨m, hm⟩ : ∃ m, (plan T SEGMENT_DURATION_SEC).length = (k + 1) + m :=
    ⟨(plan T SEGMENT_DURATION_SEC).length - (k + 1), by omega⟩
  have hsplit : loopPaths jobId 0 (plan T SEGMENT_DURATION_SEC)
      = ((List.range k).map fun i => segPathOf jobId i)
        ++ segPathOf jobId k
          :: ((List.range m).map fun i => segPathOf jobId (k + 1 + i)) := by
    rw [loopPaths_eq, hm, List.range_add, List.range_succ]
    simp [List.map_map, Function.comp]
  have hfail := transcribeSegs_fail env R e
    ((List.range k).map fun i => segPathOf jobId i)
    (segPathOf jobId k)
    ((List.range m).map fun i => segPathOf jobId (k + 1 + i))
    (by
      intro p hp'
      obtain ⟨i, hi, rfl⟩ := List.mem_map.mp hp'
      exact ⟨hsize i, hremOk i (List.mem_range.mp hi)⟩)
    (hsize k) hremE
  unfold largeBody
  simp only [hea, hp, hloop, hsplit, hfail]
  refine congrArg₂ Prod.mk rfl (congrArg₂ Prod.mk ?_ rfl)
  have hmr : ((List.range k).map fun i => segPathOf jobId i).map Event.remote
        ++ [Event.remote (segPathOf jobId k)]
      = (List.range (k + 1)).map fun i => Event.remote (segPathOf jobId i) := by
    rw [List.range_succ]
    simp [List.map_map, Function.comp]
  rw [hmr]

theorem createdFiles_cons_ea (f a : String) (rest : List Event) :
    createdFiles (Event.extractAudio f a true :: rest)
      = a :: createdFiles rest := rfl

theorem createdFiles_cons_probe (p : String) (rest : List Event) :
    createdFiles (Event.probe p :: rest) = createdFiles rest := rfl

/-- For any oracle, everything the try-block created is either the audio
render or one of the accumulated segment files the finally-block will
delete. -/
theorem largeBody_created (env : Env) (filePath jobId audioPath : String) :
    createdFiles (largeBody env filePath jobId audioPath).2.1
      ⊆ audioPath :: (largeBody env filePath jobId audioPath).2.2 := by
  unfold largeBody
  rcases hea : env.extractAudio filePath audioPath with _ | e
  · rcases hp : env.probe audioPath with e | T
    · simp [hea, hp, createdFiles]
    · rcases hloop : extractLoop env jobId audioPath T 0 [] with ⟨r, levs, segs⟩
      have hsegs : segs = createdFiles levs := by
        have hs := extractLoop_segs env jobId audioPath T
          (Nat.ceil ((T - 0) / SEGMENT_DURATION_SEC)) 0 [] le_rfl
        rw [hloop] at hs
        simpa using hs
      rcases r with _ | e
      · rcases hts : transcribeSegs env segs with ⟨res, evs2⟩
        have hevs2 : createdFiles evs2 = [] := by
          have hc := createdFiles_transcribeSegs env segs
          rw [hts] at hc
          exact hc
        rcases res with e2 | texts
        · simp only [hea, hp, hloop, hts, createdFiles_cons_ea,
            createdFiles_cons_probe, createdFiles_append, hevs2,
            List.append_nil]
          rw [← hsegs]
          exact List.Subset.refl _
        · simp only [hea, hp, hloop, hts, createdFiles_cons_ea,
            createdFiles_cons_probe, createdFiles_append, hevs2,
            List.append_nil]
          rw [← hsegs]
          exact List.Subset.refl _
      · simp only [hea, hp, hloop, createdFiles_cons_ea,
          createdFiles_cons_probe]
        rw [← hsegs]
        exact List.Subset.refl _
  · simp [hea, createdFiles]

/-- Unfolding of `transcribeLargeFile` into its try-block and its
finally-block. -/
theorem transcribeLargeFile_def (env : Env) (u : String → Bool) (p : String) :
    transcribeLargeFile env u p =
      ((largeBody env p (jobIdOf p) (audioPathOf (jobIdOf p))).1,
        (largeBody env p (jobIdOf p) (audioPathOf (jobIdOf p))).2.1
          ++ cleanupEvents u (audioPathOf (jobIdOf p)
            :: (largeBody env p (jobIdOf p) (audioPathOf (jobIdOf p))).2.2)) :=
  rfl

/-- The finally-block never changes the try-block's outcome: the result
component does not depend on the deletion oracle. -/
theorem transcribeLargeFile_fst (env : Env) (u u' : String → Bool)
    (p : String) :
    (transcribeLargeFile env u p).1 = (transcribeLargeFile env u' p).1 := rfl

/-! ### Handler path lemmas -/

theorem handler_none (cfg : Config) (env : Env) (u : String → Bool) :
    handler cfg env u none = (⟨400, Body.error "No file uploaded"⟩, []) := rfl

theorem handler_local (cfg : Config) (env : Env) (u : String → Bool)
    (f : ReqFile) (hmode : cfg.mode = "local") :
    handler cfg env u (some f) =
      ((match (runLocalWhisper env f.path).1 with
        | Except.ok t => ⟨200, Body.text t⟩
        | Except.error e => errorResponse e),
        [Event.localRun f.path, Event.unlink f.path (u f.path)]) := by
  unfold handler
  rcases hl : env.localRun f.path with t? | _ | m <;>
    simp [hmode, runLocalWhisper, hl]

theorem handler_noKey (cfg : Config) (env : Env) (u : String → Bool)
    (f : ReqFile) (hmode : ¬ cfg.mode = "local") (hkey : cfg.apiKey = none) :
    handler cfg env u (some f) =
      (⟨500, Body.error ("OPENAI_API_KEY is not set. Add it to .env for "
        ++ "API mode, or set TRANSCRIPTION_MODE=local for local Whisper.")⟩,
        [Event.unlink f.path (u f.path)]) := by
  unfold handler
  simp [hmode, hkey]

theorem handler_small (cfg : Config) (env : Env) (u : String → Bool)
    (f : ReqFile) (key : String)
    (hmode : ¬ cfg.mode = "local") (hkey : cfg.apiKey = some key)
    (hsize : f.size ≤ WHISPER_MAX_SIZE)
    (hfs : env.fileSize f.path ≤ WHISPER_MAX_SIZE) :
    handler cfg env u (some f) =
      ((match env.remote f.path with
        | Except.ok tr => ⟨200, Body.text (jsOr tr.text noSpeech)⟩
        | Except.error e => errorResponse e),
        [Event.remote f.path, Event.unlink f.path (u f.path)]) := by
  unfold handler
  have hnotbig : ¬ env.fileSize f.path > WHISPER_MAX_SIZE := by omega
  rcases hr : env.remote f.path with e | tr <;>
    simp [hmode, hkey, hsize, transcribeFileM, hnotbig, hr]

theorem handler_large (cfg : Config) (env : Env) (u : String → Bool)
    (f : ReqFile) (key : String)
    (hmode : ¬ cfg.mode = "local") (hkey : cfg.apiKey = some key)
    (hsize : ¬ f.size ≤ WHISPER_MAX_SIZE) :
    handler cfg env u (some f) =
      ((match (transcribeLargeFile env u f.path).1 with
        | Except.ok t => ⟨200, Body.text t⟩
        | Except.error e => errorResponse e),
        (transcribeLargeFile env u f.path).2
          ++ [Event.unlink f.path (u f.path)]) := by
  unfold handler
  rcases htl : transcribeLargeFile env u f.path with ⟨res, evs⟩
  rcases res with e | t <;> simp [hmode, hkey, hsize, htl]

/-- The response component of the handler does not depend on the deletion
oracle: failed unlinks never change the HTTP response. -/
theorem handler_fst_indep (cfg : Config) (env : Env) (u u' : String → Bool)
    (req : Option ReqFile) :
    (handler cfg env u req).1 = (handler cfg env u' req).1 := by
  rcases req with _ | f
  · rfl
  · by_cases hm : cfg.mode = "local"
    · rw [handler_local cfg env u f hm, handler_local cfg env u' f hm]
    · rcases hk : cfg.apiKey with _ | key
      · rw [handler_noKey cfg env u f hm hk, handler_noKey cfg env u' f hm hk]
      · by_cases hs : f.size ≤ WHISPER_MAX_SIZE
        · by_cases hfs : env.fileSize f.path ≤ WHISPER_MAX_SIZE
          · rw [handler_small cfg env u f key hm hk hs hfs,
              handler_small cfg env u' f key hm hk hs hfs]
          · unfold handler
            have hbig : env.fileSize f.path > WHISPER_MAX_SIZE := by omega
            simp [hm, hk, hs, transcribeFileM, hbig]
        · rw [handler_large cfg env u f key hm hk hs,
            handler_large cfg env u' f key hm hk hs]
          have hres := transcribeLargeFile_fst env u u' f.path
          rw [hres]

/-- Whatever the path taken, the handler ends by attempting to unlink the
stored upload. -/
theorem handler_trace_end (cfg : Config) (env : Env) (u : String → Bool)
    (f : ReqFile) :
    ∃ evs0, (handler cfg env u (some f)).2
      = evs0 ++ [Event.unlink f.path (u f.path)] :=
  ⟨_, rfl⟩

/-! ### Nonempty-transcript lemmas -/

theorem noSpeech_ne : noSpeech ≠ "" := by decide

theorem jsOr_ne (t? : Option String) (d : String) (hd : d ≠ "") :
    jsOr t? d ≠ "" := by
  rcases t? with _ | t
  · exact hd
  · show (if t = "" then d else t) ≠ ""
    by_cases h : t = ""
    · rw [if_pos h]
      exact hd
    · rw [if_neg h]
      exact h

theorem jsOrS_ne (s d : String) (hd : d ≠ "") : jsOrS s d ≠ "" := by
  unfold jsOrS
  by_cases h : s = ""
  · rw [if_pos h]
    exact hd
  · rw [if_neg h]
    exact h

theorem assemble_ne (texts : List String) : assemble texts ≠ "" :=
  jsOrS_ne _ _ noSpeech_ne

theorem runLocalWhisper_ok_ne (env : Env) (p t : String)
    (h : (runLocalWhisper env p).1 = Except.ok t) : t ≠ "" := by
  unfold runLocalWhisper at h
  rcases hl : env.localRun p with t? | _ | m <;> simp only [hl] at h
  · simp at h
    rw [← h]
    exact jsOr_ne t? noSpeech noSpeech_ne
  · simp at h
  · simp at h

theorem largeBody_ok_ne (env : Env) (filePath jobId audioPath t : String)
    (h : (largeBody env filePath jobId audioPath).1 = Except.ok t) :
    t ≠ "" := by
  unfold largeBody at h
  rcases hea : env.extractAudio filePath audioPath with _ | e
  · simp only [hea] at h
    rcases hp : env.probe audioPath with e | T
    · simp only [hp] at h
      simp at h
    · simp only [hp] at h
      rcases hloop : extractLoop env jobId audioPath T 0 [] with ⟨r, levs, segs⟩
      simp only [hloop] at h
      rcases r with _ | e
      · rcases hts : transcribeSegs env segs with ⟨res, evs2⟩
        simp only [hts] at h
        rcases res with e2 | texts
        · simp at h
        · simp at h
          rw [← h]
          exact assemble_ne texts
      · simp at h
  · simp only [hea] at h
    simp at h

/-! ### Trim lemmas for the result-assembly join -/

theorem trimChars_eq_rdrop (l : List Char) :
    trimChars l = List.rdropWhile (fun c => c.isWhitespace)
      (l.dropWhile fun c => c.isWhitespace) := rfl

theorem dropWhile_fix_of_head (p : Char → Bool) (l : List Char)
    (h : ∀ c, l.head? = some c → p c = false) : l.dropWhile p = l := by
  cases l with
  | nil => rfl
  | cons a as => simp [List.dropWhile_cons, h a rfl]

theorem head?_dropWhile_false (p : Char → Bool) :
    ∀ l : List Char, ∀ c, (l.dropWhile p).head? = some c → p c = false := by
  intro l
  induction l with
  | nil => intro c hc; cases hc
  | cons a as ih =>
    intro c hc
    rw [List.dropWhile_cons] at hc
    by_cases hpa : p a
    · rw [if_pos hpa] at hc
      exact ih c hc
    · rw [if_neg hpa] at hc
      cases hc
      simpa using hpa

theorem prefix_dropWhile_fix (p : Char → Bool) (l₁ l₂ : List Char)
    (hpre : l₁ <+: l₂) (hfix : l₂.dropWhile p = l₂) :
    l₁.dropWhile p = l₁ := by
  cases l₁ with
  | nil => rfl
  | cons a as =>
    obtain ⟨t, rfl⟩ := hpre
    apply dropWhile_fix_of_head
    intro c hc
    obtain rfl : c = a := by cases hc; rfl
    rw [List.cons_append, List.dropWhile_cons] at hfix
    by_cases hpa : p c
    · rw [if_pos hpa] at hfix
      have hlen := congrArg List.length hfix
      have hle := (List.dropWhile_sublist (l := as ++ t) p).length_le
      simp at hlen hle
      omega
    · simpa using hpa

theorem trimChars_head (l : List Char) :
    ∀ c, (trimChars l).head? = some c → c.isWhitespace = false := by
  intro c hc
  rw [trimChars_eq_rdrop] at hc
  have hpre := List.rdropWhile_prefix (fun c => c.isWhitespace)
    (l.dropWhile fun c => c.isWhitespace)
  obtain ⟨t, heq⟩ := hpre
  rcases hr : List.rdropWhile (fun c => c.isWhitespace)
      (l.dropWhile fun c => c.isWhitespace) with _ | ⟨a, as⟩
  · rw [hr] at hc
    cases hc
  · rw [hr] at hc heq
    cases hc
    apply head?_dropWhile_false (fun c => c.isWhitespace) l c
    rw [← heq, List.cons_append]
    rfl

theorem trimChars_last (l : List Char) :
    ∀ c, (trimChars l).getLast? = some c → c.isWhitespace = false := by
  intro c hc
  have hrev : (trimChars l).reverse
      = ((trimLeftChars l).reverse.dropWhile fun c => c.isWhitespace) := by
    unfold trimChars
    rw [List.reverse_reverse]
  rw [← List.head?_reverse, hrev] at hc
  exact head?_dropWhile_false _ _ c hc

theorem trimChars_fix (l : List Char)
    (hh : ∀ c, l.head? = some c → c.isWhitespace = false)
    (hl : ∀ c, l.getLast? = some c → c.isWhitespace = false) :
    trimChars l = l := by
  have h1 : (l.dropWhile fun c => c.isWhitespace) = l :=
    dropWhile_fix_of_head _ _ hh
  have h2 : (l.reverse.dropWhile fun c => c.isWhitespace) = l.reverse :=
    dropWhile_fix_of_head _ _ (by
      intro c hc
      rw [List.head?_reverse] at hc
      exact hl c hc)
  unfold trimChars trimLeftChars
  rw [h1, h2, List.reverse_reverse]

theorem trimChars_trimChars (l : List Char) :
    trimChars (trimChars l) = trimChars l :=
  trimChars_fix (trimChars l) (trimChars_head l) (trimChars_last l)

theorem jsTrim_jsTrim (s : String) : jsTrim (jsTrim s) = jsTrim s := by
  unfold jsTrim
  rw [show (String.mk (trimChars s.data)).data = trimChars s.data from rfl,
    trimChars_trimChars]

theorem jsTrim_data (s : String) (h : jsTrim s = s) :
    trimChars s.data = s.data := congrArg String.data h

theorem data_ne_nil (s : String) (h : s ≠ "") : s.data ≠ [] := by
  intro hd
  apply h
  have hmk : s = String.mk s.data := rfl
  rw [hmk, hd]

theorem jsJoin_data_ne_nil (sep : String) (u : String) (ts : List String)
    (hu : u ≠ "") : (jsJoin sep (u :: ts)).data ≠ [] := by
  cases ts with
  | nil => exact data_ne_nil u hu
  | cons v vs =>
    rw [jsJoin]
    intro hnil
    rw [String.data_append, String.data_append] at hnil
    exact data_ne_nil u hu (List.append_eq_nil.mp
      ((List.append_eq_nil.mp hnil).1)).1

theorem jsJoin_data_ends (sep : String) : ∀ ts : List String,
    (∀ t ∈ ts, jsTrim t = t ∧ t ≠ "") →
    (∀ c, (jsJoin sep ts).data.head? = some c → c.isWhitespace = false)
    ∧ (∀ c, (jsJoin sep ts).data.getLast? = some c → c.isWhitespace = false) := by
  intro ts
  induction ts with
  | nil =>
    intro _
    constructor
    · intro c hc
      cases hc
    · intro c hc
      cases hc
  | cons t rest ih =>
    intro hall
    obtain ⟨ht, htne⟩ := hall t (List.mem_cons_self t rest)
    have hh : ∀ c, t.data.head? = some c → c.isWhitespace = false := by
      intro c hc
      apply trimChars_head t.data
      rw [jsTrim_data t ht]
      exact hc
    have hl : ∀ c, t.data.getLast? = some c → c.isWhitespace = false := by
      intro c hc
      apply trimChars_last t.data
      rw [jsTrim_data t ht]
      exact hc
    cases rest with
    | nil => exact ⟨hh, hl⟩
    | cons u vs =>
      have ihr := ih fun q hq => hall q (List.mem_cons_of_mem t hq)
      have hu := (hall u (by simp)).2
      have hJ : (jsJoin sep (u :: vs)).data ≠ [] :=
        jsJoin_data_ne_nil sep u vs hu
      constructor
      · intro c hc
        rw [jsJoin, String.data_append, String.data_append,
          List.append_assoc,
          List.head?_append_of_ne_nil t.data (data_ne_nil t htne)] at hc
        exact hh c hc
      · intro c hc
        rw [jsJoin, String.data_append, String.data_append,
          List.append_assoc,
          List.getLast?_append_of_ne_nil (t.data)
            (by
              intro hnil
              exact hJ (List.append_eq_nil.mp hnil).2),
          List.getLast?_append_of_ne_nil (sep.data) hJ] at hc
        exact ihr.2 c hc

theorem jsJoin_trim_fixed (sep : String) (ts : List String)
    (hall : ∀ t ∈ ts, jsTrim t = t ∧ t ≠ "") :
    jsTrim (jsJoin sep ts) = jsJoin sep ts := by
  have hends := jsJoin_data_ends sep ts hall
  have hfix := trimChars_fix (jsJoin sep ts).data hends.1 hends.2
  unfold jsTrim
  rw [hfix]

/-- The code's join (trim at push time, then filter-join-default) agrees
with the join described by the spec, which additionally trims the final
string: that final trim is a no-op because the kept parts are trimmed and
nonempty. -/
theorem joinTexts_spec (ts : List String) : joinTexts ts = joinSpec ts := by
  have hall : ∀ t ∈ (ts.map jsTrim).filter (fun t => t ≠ ""),
      jsTrim t = t ∧ t ≠ "" := by
    intro t ht
    have hmem := List.mem_filter.mp ht
    obtain ⟨s, _, rfl⟩ := List.mem_map.mp hmem.1
    exact ⟨jsTrim_jsTrim s, of_decide_eq_true hmem.2⟩
  show jsOrS (jsJoin "\n\n" ((ts.map jsTrim).filter fun t => t ≠ "")) noSpeech
    = (if jsTrim (jsJoin "\n\n" ((ts.map jsTrim).filter fun t => t ≠ "")) = ""
      then noSpeech
      else jsTrim (jsJoin "\n\n" ((ts.map jsTrim).filter fun t => t ≠ "")))
  rw [jsJoin_trim_fixed "\n\n" _ hall]
  rfl

/-! ### Error-response shape lemmas -/

theorem errorResponse_is_error (e : JsError) :
    ∃ m, (errorResponse e).body = Body.error m := by
  unfold errorResponse
  split_ifs <;> exact ⟨_, rfl⟩

theorem errorResponse_status (e : JsError) :
    (errorResponse e).status ∈ ([400, 401, 429, 500, 503] : List Nat) := by
  unfold errorResponse
  split_ifs <;> simp

theorem errorResponse_status_ne_200 (e : JsError) :
    (errorResponse e).status ≠ 200 := by
  unfold errorResponse
  split_ifs <;> simp

/-! ### Concrete plan evaluations -/

theorem ceil_div_1500 : Nat.ceil ((1500 : ℚ) / SEGMENT_DURATION_SEC) = 3 := by
  rw [show SEGMENT_DURATION_SEC = (600 : ℚ) from rfl,
    Nat.ceil_eq_iff (by norm_num)]
  norm_num

theorem ceil_div_600 : Nat.ceil ((600 : ℚ) / SEGMENT_DURATION_SEC) = 1 := by
  rw [show SEGMENT_DURATION_SEC = (600 : ℚ) from rfl,
    Nat.ceil_eq_iff (by norm_num)]
  norm_num

theorem plan_1500 : plan 1500 SEGMENT_DURATION_SEC
    = [(0, 600), (600, 600), (1200, 300)] := by
  rw [plan_closed 1500 SEGMENT_DURATION_SEC segDurPos, ceil_div_1500]
  rw [show (3 : ℕ) = 2 + 1 from rfl, List.range_succ,
    show (2 : ℕ) = 1 + 1 from rfl, List.range_succ,
    show (1 : ℕ) = 0 + 1 from rfl, List.range_succ, List.range_zero]
  norm_num [SEGMENT_DURATION_SEC, min_def]

theorem plan_600 : plan 600 SEGMENT_DURATION_SEC = [(0, 600)] := by
  rw [plan_closed 600 SEGMENT_DURATION_SEC segDurPos, ceil_div_600]
  rw [show (1 : ℕ) = 0 + 1 from rfl, List.range_succ, List.range_zero]
  norm_num [SEGMENT_DURATION_SEC, min_def]

theorem plan_get (T L : ℚ) (hL : 0 < L) (i : ℕ)
    (h : i < (plan T L).length) :
    (plan T L).get ⟨i, h⟩ = ((i : ℚ) * L, min L (T - (i : ℚ) * L)) := by
  have hc := plan_closed T L hL
  rw [List.get_of_eq hc]
  simp

theorem handler_small_statBig (cfg : Config) (env : Env) (u : String → Bool)
    (f : ReqFile) (key : String)
    (hmode : ¬ cfg.mode = "local") (hkey : cfg.apiKey = some key)
    (hsize : f.size ≤ WHISPER_MAX_SIZE)
    (hfs : env.fileSize f.path > WHISPER_MAX_SIZE) :
    handler cfg env u (some f) =
      (errorResponse (mkError ("Segment too large ("
        ++ toString (jsRoundMB (env.fileSize f.path))
        ++ " MB). Try shorter segments.")),
        [Event.unlink f.path (u f.path)]) := by
  unfold handler
  simp [hmode, hkey, hsize, transcribeFileM, hfs]

/-- Every response of the handler is the missing-file 400, the
missing-key 500, a 200 with a transcript, or the catch-block mapping of
some error. -/
theorem handler_cases (cfg : Config) (env : Env) (u : String → Bool)
    (req : Option ReqFile) :
    (handler cfg env u req).1 = ⟨400, Body.error "No file uploaded"⟩
    ∨ (handler cfg env u req).1
      = ⟨500, Body.error ("OPENAI_API_KEY is not set. Add it to .env for "
        ++ "API mode, or set TRANSCRIPTION_MODE=local for local Whisper.")⟩
    ∨ (∃ t, (handler cfg env u req).1 = ⟨200, Body.text t⟩)
    ∨ (∃ e, (handler cfg env u req).1 = errorResponse e) := by
  rcases req with _ | f
  · exact Or.inl rfl
  · by_cases hm : cfg.mode = "local"
    · rw [handler_local cfg env u f hm]
      rcases hl : (runLocalWhisper env f.path).1 with e | t
      · exact Or.inr (Or.inr (Or.inr ⟨e, rfl⟩))
      · exact Or.inr (Or.inr (Or.inl ⟨t, rfl⟩))
    · rcases hk : cfg.apiKey with _ | key
      · rw [handler_noKey cfg env u f hm hk]
        exact Or.inr (Or.inl rfl)
      · by_cases hs : f.size ≤ WHISPER_MAX_SIZE
        · by_cases hfs : env.fileSize f.path ≤ WHISPER_MAX_SIZE
          · rw [handler_small cfg env u f key hm hk hs hfs]
            rcases hr : env.remote f.path with e | tr
            · exact Or.inr (Or.inr (Or.inr ⟨e, rfl⟩))
            · exact Or.inr (Or.inr (Or.inl ⟨jsOr tr.text noSpeech, rfl⟩))
          · rw [handler_small_statBig cfg env u f key hm hk hs (by omega)]
            exact Or.inr (Or.inr (Or.inr ⟨_, rfl⟩))
        · rw [handler_large cfg env u f key hm hk hs]
          rcases htl : (transcribeLargeFile env u f.path).1 with e | t
          · exact Or.inr (Or.inr (Or.inr ⟨e, rfl⟩))
          · exact Or.inr (Or.inr (Or.inl ⟨t, rfl⟩))

/-! ### Claim theorems -/

/-- C4: for every total duration `T ≥ 0` and fixed segment length
`L > 0`, the segment plan produced by the segmentation loop is the
ordered sequence of non-overlapping ranges with starts `0, L, 2L, …`,
each length `min L (T - start)` so no range extends past `T`, lengths
summing exactly to `T`, and count `⌈T / L⌉`; when `T = 0` it is empty. -/
theorem C4_planner (T L : ℚ) (hT : 0 ≤ T) (hL : 0 < L) :
    plannerCorrect T L := by
  refine ⟨plan_closed T L hL, plan_length T L hL, plan_sum T L hT hL,
    ?_, ?_, ?_⟩
  · intro h0
    subst h0
    rw [plan_closed 0 L hL]
    simp
  · intro i h
    have hg := plan_get T L hL i h
    have hiT : (i : ℚ) * L < T := by
      have hlen : i < Nat.ceil (T / L) := by
        rw [← plan_length T L hL]
        exact h
      have hdiv := Nat.lt_ceil.mp hlen
      calc (i : ℚ) * L < (T / L) * L := mul_lt_mul_of_pos_right hdiv hL
        _ = T := by field_simp
    refine ⟨by rw [hg], by rw [hg], ?_, ?_⟩
    · rw [hg]
      show 0 < min L (T - (i : ℚ) * L)
      apply lt_min hL
      linarith
    · rw [hg]
      show (i : ℚ) * L + min L (T - (i : ℚ) * L) ≤ T
      have hm := min_le_right L (T - (i : ℚ) * L)
      linarith
  · intro i h
    have hg1 := plan_get T L hL i (Nat.lt_of_succ_lt h)
    have hg2 := plan_get T L hL (i + 1) h
    rw [hg1, hg2]
    show (i : ℚ) * L + min L (T - (i : ℚ) * L) ≤ (((i + 1 : ℕ)) : ℚ) * L
    push_cast
    have hm := min_le_left L (T - (i : ℚ) * L)
    nlinarith

theorem C4_planner_witness :
    (0 : ℚ) ≤ 1500 ∧ (0 : ℚ) < 600 ∧ plannerCorrect 1500 600 :=
  ⟨by norm_num, by norm_num, C4_planner 1500 600 (by norm_num) (by norm_num)⟩

/-- C5: the result-assembly join trims each text, drops the texts that
are empty after trimming, joins the remainder in order with a blank-line
separator and trims the final string, substituting the sentinel when the
result is empty — in particular `join []` and `join ["", "  "]` give the
sentinel and `join ["  Hello ", "", "world  "]` gives
`"Hello\n\nworld"`. -/
theorem C5_join (ts : List String) :
    joinTexts ts = joinSpec ts
    ∧ joinTexts [] = noSpeech
    ∧ joinTexts ["", "  "] = noSpeech
    ∧ joinTexts ["  Hello ", "", "world  "] = "Hello\n\nworld" :=
  ⟨joinTexts_spec ts, by decide, by decide, by decide⟩

theorem C5_join_witness :
    joinTexts ["  a "] = joinSpec ["  a "] := (C5_join ["  a "]).1

/-- C6: the remote adapter fails locally with the segment-too-large
error, before any network event, exactly when the file exceeds the 25 MB
service limit; under the size precondition that branch is unreachable and
the one remote call's outcome is surfaced unchanged. -/
theorem C6_oversize (env : Env) (p : String) : oversizeGuard env p := by
  refine ⟨?_, ?_, ?_⟩
  · intro h
    unfold transcribeFileM
    rw [if_pos h]
  · intro h
    unfold transcribeFileM
    rw [if_neg (by omega)]
  · constructor
    · rintro ⟨⟨e, _⟩, hevs⟩
      by_contra hle
      unfold transcribeFileM at hevs
      rw [if_neg hle] at hevs
      simp at hevs
    · intro h
      unfold transcribeFileM
      rw [if_pos h]
      exact ⟨⟨_, rfl⟩, rfl⟩

theorem C6_oversize_witness :
    oversizeGuard bigEnv "seg.mp3" ∧ oversizeGuard okEnv "seg.mp3" :=
  ⟨C6_oversize bigEnv "seg.mp3", C6_oversize okEnv "seg.mp3"⟩

theorem tLF_created_unlinked (env : Env) (u : String → Bool) (p : String) :
    ∀ q ∈ createdFiles (transcribeLargeFile env u p).2,
      Event.unlink q (u q) ∈ (transcribeLargeFile env u p).2 := by
  intro q hq
  rw [transcribeLargeFile_def] at hq ⊢
  rw [createdFiles_append, createdFiles_cleanup, List.append_nil] at hq
  have hsub := largeBody_created env p (jobIdOf p) (audioPathOf (jobIdOf p)) hq
  refine List.mem_append_right _ ?_
  unfold cleanupEvents
  exact List.mem_map.mpr ⟨q, hsub, rfl⟩

/-- C2: every temporary file the segmented path created — the
whole-audio render and every per-segment render — has its deletion
attempted before `transcribeLargeFile` returns, on success and failure
alike; when the deletions succeed no created file survives, and deletion
outcomes never change the function's result. -/
theorem C2_cleanup (env : Env) (u u' : String → Bool) (filePath : String) :
    cleanupSpec env u u' filePath := by
  refine ⟨transcribeLargeFile_fst env u u' filePath,
    tLF_created_unlinked env u filePath, ?_⟩
  intro hall
  unfold leakedFiles
  rw [List.filter_eq_nil_iff]
  intro q hq
  have hdel := tLF_created_unlinked env u filePath q hq
  rw [hall q] at hdel
  simp [deletedIn, hdel]

theorem C2_cleanup_witness : cleanupSpec okEnv allDel noDel "video.mp4" :=
  C2_cleanup okEnv allDel noDel "video.mp4"

/-- C7: the dispatch depends only on the configured mode and the upload
size: local mode performs exactly one local-backend call and never
touches the prober, extractor, planner or remote backend; remote mode
with a size at or under the limit performs exactly one remote call and
never invokes extraction or planning. -/
theorem C7_dispatch :
    (∀ cfg env u f, cfg.mode = "local" → localDispatch cfg env u f)
    ∧ (∀ cfg env u f key, ¬ cfg.mode = "local" → cfg.apiKey = some key →
        f.size ≤ WHISPER_MAX_SIZE → env.fileSize f.path = f.size →
        singleShotDispatch cfg env u f) := by
  constructor
  · intro cfg env u f hm
    unfold localDispatch
    rw [handler_local cfg env u f hm]
  · intro cfg env u f key hm hk hs hfs
    unfold singleShotDispatch
    rw [handler_small cfg env u f key hm hk hs (by omega)]

theorem C7_dispatch_witness :
    localCfg.mode = "local" ∧ (¬ apiCfg.mode = "local")
    ∧ smallFile.size ≤ WHISPER_MAX_SIZE
    ∧ localDispatch localCfg okEnv allDel vidFile
    ∧ singleShotDispatch apiCfg okEnv allDel smallFile :=
  ⟨rfl, by decide, by decide,
    C7_dispatch.1 localCfg okEnv allDel vidFile rfl,
    C7_dispatch.2 apiCfg okEnv allDel smallFile "sk-test" (by decide) rfl
      (by decide) rfl⟩

/-- C10: for every request that stored an upload, the handler ends by
attempting to unlink the stored file, on success and failure paths
alike, and a failed unlink never alters the response. -/
theorem C10_upload (cfg : Config) (env : Env) (u u' : String → Bool)
    (f : ReqFile) : uploadCleanup cfg env u u' f :=
  ⟨handler_trace_end cfg env u f, handler_fst_indep cfg env u u' (some f)⟩

theorem C10_upload_witness : uploadCleanup localCfg okEnv allDel noDel vidFile :=
  C10_upload localCfg okEnv allDel noDel vidFile

/-- C9: no successful request in any mode carries an empty transcript
string: every 200 response's text is nonempty, the empty or missing
backend text having been replaced by the sentinel; the library local
path's join obeys the same rule. -/
theorem C9_nonempty :
    (∀ cfg env u req t,
      (handler cfg env u req).1.body = Body.text t → t ≠ "")
    ∧ (∀ ts, transcribeLocalJoin ts ≠ "") := by
  constructor
  · intro cfg env u req t hbody
    rcases req with _ | f
    · rw [handler_none] at hbody
      simp at hbody
    · by_cases hm : cfg.mode = "local"
      · rw [handler_local cfg env u f hm] at hbody
        rcases hl : (runLocalWhisper env f.path).1 with e | t'
        · rw [hl] at hbody
          obtain ⟨m, hem⟩ := errorResponse_is_error e
          simp only [] at hbody
          rw [hem] at hbody
          simp at hbody
        · rw [hl] at hbody
          simp at hbody
          rw [← hbody]
          exact runLocalWhisper_ok_ne env f.path t' hl
      · rcases hk : cfg.apiKey with _ | key
        · rw [handler_noKey cfg env u f hm hk] at hbody
          simp at hbody
        · by_cases hs : f.size ≤ WHISPER_MAX_SIZE
          · by_cases hfs : env.fileSize f.path ≤ WHISPER_MAX_SIZE
            · rw [handler_small cfg env u f key hm hk hs hfs] at hbody
              rcases hr : env.remote f.path with e | tr
              · rw [hr] at hbody
                obtain ⟨m, hem⟩ := errorResponse_is_error e
                simp only [] at hbody
                rw [hem] at hbody
                simp at hbody
              · rw [hr] at hbody
                simp at hbody
                rw [← hbody]
                exact jsOr_ne tr.text noSpeech noSpeech_ne
            · rw [handler_small_statBig cfg env u f key hm hk hs (by omega)]
                at hbody
              obtain ⟨m, hem⟩ := errorResponse_is_error
                (mkError ("Segment too large ("
                  ++ toString (jsRoundMB (env.fileSize f.path))
                  ++ " MB). Try shorter segments."))
              simp only [] at hbody
              rw [hem] at hbody
              simp at hbody
          · rw [handler_large cfg env u f key hm hk hs] at hbody
            rcases htl : (transcribeLargeFile env u f.path).1 with e | t'
            · rw [htl] at hbody
              obtain ⟨m, hem⟩ := errorResponse_is_error e
              simp only [] at hbody
              rw [hem] at hbody
              simp at hbody
            · rw [htl] at hbody
              simp at hbody
              rw [← hbody]
              exact largeBody_ok_ne env f.path (jobIdOf f.path)
                (audioPathOf (jobIdOf f.path)) t' htl
  · intro ts
    unfold transcribeLocalJoin
    exact jsOrS_ne _ _ noSpeech_ne

theorem C9_nonempty_witness :
    (handler localCfg okEnv allDel (some vidFile)).1.body
      = Body.text "local text"
    ∧ ("local text" : String) ≠ ""
    ∧ transcribeLocalJoin [""] ≠ "" :=
  ⟨by decide,
    C9_nonempty.1 localCfg okEnv allDel (some vidFile) "local text" (by decide),
    C9_nonempty.2 [""]⟩

/-- C1: in remote mode, for an upload over the service limit on which
every external operation succeeds, the handler extracts the whole audio
exactly once, probes it once, extracts and dispatches exactly one
segment per planned range sequentially in plan order, joins the
per-segment texts in that same order, and deletes all its temporary
files — the whole run being exactly `segmentedTrace`. -/
theorem C1_segmented (cfg : Config) (env : Env) (u : String → Bool)
    (f : ReqFile) (key : String) (T : ℚ) (R : String → RemoteResult)
    (hmode : ¬ cfg.mode = "local") (hkey : cfg.apiKey = some key)
    (hbig : ¬ f.size ≤ WHISPER_MAX_SIZE)
    (hea : env.extractAudio f.path (audioPathOf (jobIdOf f.path)) = none)
    (hp : env.probe (audioPathOf (jobIdOf f.path)) = Except.ok T)
    (hseg : ∀ a b s d, env.extractSegment a b s d = none)
    (hsize : ∀ i, env.fileSize (segPathOf (jobIdOf f.path) i)
      ≤ WHISPER_MAX_SIZE)
    (hrem : ∀ p, env.remote p = Except.ok (R p)) :
    segmentedRun cfg env u f T R := by
  unfold segmentedRun segmentedTrace
  rw [handler_large cfg env u f key hmode hkey hbig, transcribeLargeFile_def,
    largeBody_ok env f.path (jobIdOf f.path) (audioPathOf (jobIdOf f.path))
      T R hea hp hseg hsize hrem]

theorem C1_segmented_witness :
    (¬ apiCfg.mode = "local") ∧ (¬ vidFile.size ≤ WHISPER_MAX_SIZE)
    ∧ segmentedRun apiCfg okEnv allDel vidFile 1500 okR :=
  ⟨by decide, by decide,
    C1_segmented apiCfg okEnv allDel vidFile "sk-test" 1500 okR (by decide)
      rfl (by decide) rfl rfl (fun a b s d => rfl)
      (fun _ => (by decide : (1000000 : Nat) ≤ WHISPER_MAX_SIZE))
      (fun p => rfl)⟩

/-- C3: if the remote call for segment `k` of the plan fails, the later
segments are never dispatched, the job fails as a whole with that error
surfaced and no transcript body, and every temporary file created so far
is still deleted — the whole run being exactly `failTrace`. -/
theorem C3_failAt (cfg : Config) (env : Env) (u : String → Bool)
    (f : ReqFile) (key : String) (T : ℚ) (R : String → RemoteResult)
    (e : JsError) (k : ℕ)
    (hmode : ¬ cfg.mode = "local") (hkey : cfg.apiKey = some key)
    (hbig : ¬ f.size ≤ WHISPER_MAX_SIZE)
    (hea : env.extractAudio f.path (audioPathOf (jobIdOf f.path)) = none)
    (hp : env.probe (audioPathOf (jobIdOf f.path)) = Except.ok T)
    (hseg : ∀ a b s d, env.extractSegment a b s d = none)
    (hk : k < (plan T SEGMENT_DURATION_SEC).length)
    (hsize : ∀ i, env.fileSize (segPathOf (jobIdOf f.path) i)
      ≤ WHISPER_MAX_SIZE)
    (hremOk : ∀ i < k, env.remote (segPathOf (jobIdOf f.path) i)
      = Except.ok (R (segPathOf (jobIdOf f.path) i)))
    (hremE : env.remote (segPathOf (jobIdOf f.path) k) = Except.error e) :
    failAtRun cfg env u f T e k
    ∧ ∀ t, (handler cfg env u (some f)).1.body ≠ Body.text t := by
  have hlb := largeBody_failAt env f.path (jobIdOf f.path)
    (audioPathOf (jobIdOf f.path)) T R e k hea hp hseg hk hsize hremOk hremE
  constructor
  · unfold failAtRun failTrace
    rw [handler_large cfg env u f key hmode hkey hbig,
      transcribeLargeFile_def, hlb]
  · intro t
    rw [handler_large cfg env u f key hmode hkey hbig]
    have h1 : (transcribeLargeFile env u f.path).1 = Except.error e := by
      show (largeBody env f.path (jobIdOf f.path)
        (audioPathOf (jobIdOf f.path))).1 = Except.error e
      rw [hlb]
    simp only [h1]
    obtain ⟨m, hem⟩ := errorResponse_is_error e
    rw [hem]
    simp

theorem C3_failAt_witness :
    (¬ apiCfg.mode = "local") ∧ (¬ vidFile.size ≤ WHISPER_MAX_SIZE)
    ∧ 1 < (plan 1500 SEGMENT_DURATION_SEC).length
    ∧ failAtRun apiCfg failEnv allDel vidFile 1500 netErr 1
    ∧ ∀ t, (handler apiCfg failEnv allDel (some vidFile)).1.body
        ≠ Body.text t := by
  have hmain := C3_failAt apiCfg failEnv allDel vidFile "sk-test" 1500 okR
    netErr 1 (by decide) rfl (by decide) rfl rfl (fun a b s d => rfl)
    (by rw [plan_1500]; decide)
    (fun _ => (by decide : (1000000 : Nat) ≤ WHISPER_MAX_SIZE))
    (by decide) (by decide)
  exact ⟨by decide, by decide, by rw [plan_1500]; decide, hmain.1, hmain.2⟩

/-! ### Concrete evaluation of the oversized-segment run -/

theorem extractLoop_bigEnv :
    extractLoop bigEnv (jobIdOf vidFile.path)
        (audioPathOf (jobIdOf vidFile.path)) 600 0 [] =
      (none,
        [Event.extractSegment (audioPathOf (jobIdOf vidFile.path))
          (segPathOf (jobIdOf vidFile.path) 0) 0 600 true],
        [segPathOf (jobIdOf vidFile.path) 0]) := by
  rw [extractLoop_ok bigEnv (jobIdOf vidFile.path)
    (audioPathOf (jobIdOf vidFile.path)) 600 (fun a b s d => rfl)
    (Nat.ceil ((600 - 0) / SEGMENT_DURATION_SEC)) 0 [] le_rfl]
  have hpl : planFrom SEGMENT_DURATION_SEC 600 0 = [(0, 600)] := by
    rw [show planFrom SEGMENT_DURATION_SEC 600 0
      = plan 600 SEGMENT_DURATION_SEC from rfl, plan_600]
  rw [hpl]
  simp [loopEvents, loopPaths]

theorem handler_bigEnv_eval :
    (handler apiCfg bigEnv allDel (some vidFile)).1
      = ⟨500, Body.error "Segment too large (26 MB). Try shorter segments."⟩ := by
  rw [handler_large apiCfg bigEnv allDel vidFile "sk-test" (by decide) rfl
    (by decide)]
  have hts : transcribeSegs bigEnv [segPathOf (jobIdOf vidFile.path) 0]
      = (Except.error (mkError
          "Segment too large (26 MB). Try shorter segments."), []) := by
    decide
  have h1 : (transcribeLargeFile bigEnv allDel vidFile.path).1
      = Except.error (mkError
          "Segment too large (26 MB). Try shorter segments.") := by
    show (largeBody bigEnv vidFile.path (jobIdOf vidFile.path)
      (audioPathOf (jobIdOf vidFile.path))).1 = _
    unfold largeBody
    simp only [show bigEnv.extractAudio vidFile.path
        (audioPathOf (jobIdOf vidFile.path)) = none from rfl,
      show bigEnv.probe (audioPathOf (jobIdOf vidFile.path))
        = Except.ok (600 : ℚ) from rfl,
      extractLoop_bigEnv, hts]
  simp only [h1]
  decide

/-- C8 (counterexample): a concrete run whose failure is an oversized
segment — a 30 MB upload in remote mode whose single 26 MB segment
render exceeds the service limit — is answered with HTTP status 500, not
the 400 the claim states for an oversized segment. -/
theorem C8_counterexample :
    vidFile.size > WHISPER_MAX_SIZE
    ∧ (handler apiCfg bigEnv allDel (some vidFile)).1
        = ⟨500, Body.error "Segment too large (26 MB). Try shorter segments."⟩
    ∧ (handler apiCfg bigEnv allDel (some vidFile)).1.status ≠ 400 := by
  refine ⟨by decide, handler_bigEnv_eval, ?_⟩
  rw [handler_bigEnv_eval]
  decide

/-- C8 (amended): the final response is `{ text }` with status 200
exactly on success and `{ error }` with a status in
{400, 401, 429, 500, 503} on failure: 401 for a bad credential, 429 for
rate limiting, 503 for a connectivity failure, 400 for a missing file,
an over-limit upload, or a bad file type — and 500 otherwise, which
includes an oversized segment (not 400 as originally claimed). -/
theorem C8_responses :
    (∀ cfg env u req,
      ((handler cfg env u req).1.status = 200
        ↔ ∃ t, (handler cfg env u req).1.body = Body.text t)
      ∧ (handler cfg env u req).1.status
          ∈ ([200, 400, 401, 429, 500, 503] : List Nat)
      ∧ ((handler cfg env u req).1.status ≠ 200
        → ∃ m, (handler cfg env u req).1.body = Body.error m))
    ∧ (∀ e, mentionsTool e = false → e.status = some 401 →
        errorResponse e
          = ⟨401, Body.error "Invalid API key. Check your OPENAI_API_KEY."⟩)
    ∧ (∀ e, mentionsTool e = false → e.status = some 429 →
        errorResponse e = ⟨429, Body.error
          "Rate limit exceeded. Please wait a moment and try again."⟩)
    ∧ (∀ e, mentionsTool e = false → e.status = none → isConnErr e = true →
        errorResponse e = ⟨503, Body.error
          ("Connection to OpenAI failed. Check your internet, "
            ++ "try again, or use a VPN if OpenAI is blocked in your region.")⟩)
    ∧ (∀ e, mentionsTool e = false → e.status = none → isConnErr e = false →
        e.code = some "LIMIT_FILE_SIZE" →
        errorResponse e
          = ⟨400, Body.error "File too large. Maximum size is 200 MB."⟩)
    ∧ (∀ e, mentionsTool e = false → e.status = none → isConnErr e = false →
        e.code = none → jsIncludes e.message ("Invalid file type") = true →
        errorResponse e = ⟨400, Body.error e.message⟩)
    ∧ (∀ e, mentionsTool e = false → e.status = none → isConnErr e = false →
        e.code = none → jsIncludes e.message ("Invalid file type") = false →
        errorResponse e = ⟨500, Body.error
          (jsOrS e.message "Transcription failed. Please try again.")⟩)
    ∧ (∀ cfg env u, handler cfg env u none
        = (⟨400, Body.error "No file uploaded"⟩, []))
    ∧ (handler apiCfg bigEnv allDel (some vidFile)).1
        = ⟨500, Body.error
            "Segment too large (26 MB). Try shorter segments."⟩ := by
  refine ⟨?_, ?_, ?_, ?_, ?_, ?_, ?_, fun cfg env u => rfl,
    handler_bigEnv_eval⟩
  · intro cfg env u req
    rcases handler_cases cfg env u req with h | h | ⟨t, h⟩ | ⟨e, h⟩
    · rw [h]
      refine ⟨by simp, by simp, fun _ => ⟨_, rfl⟩⟩
    · rw [h]
      refine ⟨by simp, by simp, fun _ => ⟨_, rfl⟩⟩
    · rw [h]
      exact ⟨by simp, by simp, by simp⟩
    · rw [h]
      refine ⟨?_, ?_, fun _ => errorResponse_is_error e⟩
      · apply iff_of_false (errorResponse_status_ne_200 e)
        rintro ⟨t, ht⟩
        obtain ⟨m, hm2⟩ := errorResponse_is_error e
        rw [hm2] at ht
        cases ht
      · have hst := errorResponse_status e
        simp at hst ⊢
        tauto
  · intro e hmt h401
    unfold errorResponse
    rw [if_neg (by simp [hmt]), if_pos h401]
  · intro e hmt h429
    unfold errorResponse
    rw [if_neg (by simp [hmt]), if_neg (by simp [h429]), if_pos h429]
  · intro e hmt hst hconn
    unfold errorResponse
    rw [if_neg (by simp [hmt]), if_neg (by simp [hst]),
      if_neg (by simp [hst]), if_pos hconn]
  · intro e hmt hst hconn hcode
    unfold errorResponse
    rw [if_neg (by simp [hmt]), if_neg (by simp [hst]),
      if_neg (by simp [hst]), if_neg (by simp [hconn]), if_pos hcode]
  · intro e hmt hst hconn hcode hinc
    unfold errorResponse
    rw [if_neg (by simp [hmt]), if_neg (by simp [hst]),
      if_neg (by simp [hst]), if_neg (by simp [hconn]),
      if_neg (by simp [hcode]), if_pos hinc]
  · intro e hmt hst hconn hcode hinc
    unfold errorResponse
    rw [if_neg (by simp [hmt]), if_neg (by simp [hst]),
      if_neg (by simp [hst]), if_neg (by simp [hconn]),
      if_neg (by simp [hcode]), if_neg (by simp [hinc])]

theorem C8_responses_witness :
    mentionsTool ⟨"bad key", some 401, "Error", none, none⟩ = false
    ∧ errorResponse ⟨"bad key", some 401, "Error", none, none⟩
        = ⟨401, Body.error "Invalid API key. Check your OPENAI_API_KEY."⟩
    ∧ ((handler apiCfg bigEnv allDel (some vidFile)).1.status = 200
        ↔ ∃ t, (handler apiCfg bigEnv allDel (some vidFile)).1.body
          = Body.text t) :=
  ⟨by decide,
    C8_responses.2.1 ⟨"bad key", some 401, "Error", none, none⟩ (by decide) rfl,
    (C8_responses.1 apiCfg bigEnv allDel (some vidFile)).1⟩
